import Mathlib

/-!
Shallow embedding of `src/mongo/db/storage/kv/kv_storage_engine.cpp`
(class `KVStorageEngine`), the catalog coordinator of a KV storage
subsystem.  External collaborators (the `KVEngine`, the per-database
`KVDatabaseCatalogEntry` handles, `NamespaceString` replication
predicates, the logical clock) are modelled as oracle parameters in an
environment record; handles are identified by numeric ids so that
"same instance" properties are expressible.
-/

namespace Mongo

/-- `mongo::Timestamp`: a (seconds, increment) pair.  `Timestamp()` is the
null timestamp. -/
structure Timestamp where
  secs : Nat
  inc : Nat
deriving DecidableEq, Repr

/-- `Timestamp::isNull()`: both components zero. -/
def Timestamp.isNull (t : Timestamp) : Bool :=
  t.secs == 0 && t.inc == 0

/-- The null timestamp `Timestamp()`. -/
def Timestamp.null : Timestamp := ⟨0, 0⟩

/-- Modelled from the spec: `Timestamp::kAllowUnstableCheckpointsSentinel`,
the distinguished sentinel value of `initialDataTimestamp` that marks
unstable-checkpoint mode (its definition lives outside this file; all the
code under study does with it is compare for equality, so any fixed
non-null value is faithful). -/
def Timestamp.sentinel : Timestamp := ⟨0, 1⟩

/-- Error codes appearing in this translation unit. -/
inductive ErrorCode
  | NamespaceNotFound
  | UnrecoverableRollbackError
  | BadValue
  | Other (n : Nat)
deriving DecidableEq, Repr

/-- `mongo::Status`: OK or an error with a code and a message. -/
inductive Status
  | ok
  | err (code : ErrorCode) (msg : String)
deriving DecidableEq, Repr

/-- `Status::isOK()`. -/
def Status.isOK : Status → Bool
  | .ok => true
  | .err _ _ => false

/-- Outcome of running a piece of code that may `invariant`/`fassert`:
either the process dies (`fatal`) or the code returns a value. -/
inductive Outcome (α : Type)
  | fatal (msg : String)
  | ok (val : α)
deriving DecidableEq, Repr

/-- Whether an outcome is a fatal invariant/fassert failure. -/
def Outcome.isFatal {α : Type} : Outcome α → Bool
  | .fatal _ => true
  | .ok _ => false

/-- Association-list lookup (the map semantics of `std::map::find`). -/
def alookup {α β : Type} [DecidableEq α] : List (α × β) → α → Option β
  | [], _ => none
  | (k, v) :: rest, key => if k = key then some v else alookup rest key

/-- Association-list store (`map[k] = v`): replace the binding if the key
is present, otherwise add it. -/
def aset {α β : Type} [DecidableEq α] : List (α × β) → α → β → List (α × β)
  | [], key, v => [(key, v)]
  | (k, w) :: rest, key, v =>
      if k = key then (k, v) :: rest else (k, w) :: aset rest key v

/-- Association-list removal (`map::erase(k)`). -/
def aerase {α β : Type} [DecidableEq α] : List (α × β) → α → List (α × β)
  | [], _ => []
  | (k, w) :: rest, key => if k = key then rest else (k, w) :: aerase rest key

/-- `NamespaceString::db()`: the part of `db.collection` before the first
dot. -/
def nsDB (ns : String) : String := ⟨ns.data.takeWhile (fun c => c ≠ '.')⟩

/-- `NamespaceString::coll()`: the part of `db.collection` after the first
dot (empty when there is no dot). -/
def nsColl (ns : String) : String := ⟨(ns.data.dropWhile (fun c => c ≠ '.')).drop 1⟩

/-- `StringData::startsWith`: the first string starts with the second. -/
def strStartsWith (s pre : String) : Bool := pre.data.isPrefixOf s.data

/-- A change registered on the recovery unit.  The only change this
translation unit registers is `KVStorageEngine::RemoveDBChange`, holding
the database name and the removed `KVDatabaseCatalogEntry` (as its id). -/
inductive Change
  | removeDB (db : String) (entry : Nat)
deriving DecidableEq, Repr

/-- The state of the current operation's recovery unit: its commit
timestamp (null = unset) and its registered changes, most recent first. -/
structure RU where
  commitTs : Timestamp
  changes : List Change
deriving DecidableEq, Repr

/-- `RecoveryUnit::Change::rollback()` for the changes of this file.
`RemoveDBChange::rollback` reinserts the removed entry under its key
(`_engine->_dbs[_db] = _entry`). -/
def Change.applyRollback (c : Change) (dbs : List (String × Nat)) : List (String × Nat) :=
  match c with
  | .removeDB db entry => aset dbs db entry

/-- The mutable state of a `KVStorageEngine` together with the current
operation context's recovery unit.

* `dbs` is the `_dbs` map from database names to handle ids;
* `nextId` feeds the `_databaseCatalogEntryFactory` model: a fresh call
  returns id `nextId` (so distinct creations are distinct instances);
* `entries` maps each live handle id to the namespaces its
  `getCollectionNamespaces` reports;
* `initialDataTimestamp` is the `_initialDataTimestamp` cache;
* `engineNull` is whether the `_engine` pointer is null;
* `engineShutdownCalled` records that `_engine->cleanShutdown()` ran;
* `catalogOpen` is whether `_catalog`/`_catalogRecordStore` are live. -/
structure St where
  dbs : List (String × Nat)
  nextId : Nat
  entries : List (Nat × List String)
  ru : RU
  initialDataTimestamp : Timestamp
  engineNull : Bool
  engineShutdownCalled : Bool
  catalogOpen : Bool
deriving DecidableEq, Repr

/-- `KVStorageEngine::cleanShutdown()`: delete every `_dbs` entry and clear
the map, reset `_catalog` and `_catalogRecordStore`, call
`_engine->cleanShutdown()`.  The `_engine` pointer itself is intentionally
left alone ("intentionally not deleting _engine"), so `engineNull` is
unchanged. -/
def cleanShutdown (st : St) : St :=
  { st with dbs := [], catalogOpen := false, engineShutdownCalled := true }

/-- `KVStorageEngine::setInitialDataTimestamp`: caches the value in
`_initialDataTimestamp` (and forwards it to the engine). -/
def setInitialDataTimestamp (st : St) (t : Timestamp) : St :=
  { st with initialDataTimestamp := t }

/-- `KVStorageEngine::newRecoveryUnit()`: returns NULL when `_engine` is
null (the "shutdown" branch), otherwise forwards to
`_engine->newRecoveryUnit()` (modelled as a fresh recovery unit). -/
def newRecoveryUnit (st : St) : Option RU :=
  if st.engineNull then none else some { commitTs := Timestamp.null, changes := [] }

/-- `KVStorageEngine::getDatabaseCatalogEntry(opCtx, dbName)`: look up
`_dbs[dbName]`; on a miss create the entry via the factory (fresh id) and
store it; return the stored handle. -/
def getDatabaseCatalogEntry (st : St) (dbName : String) : Nat × St :=
  match alookup st.dbs dbName with
  | some h => (h, st)
  | none =>
      (st.nextId,
       { st with
           dbs := aset st.dbs dbName st.nextId,
           entries := aset st.entries st.nextId [],
           nextId := st.nextId + 1 })

/-- Per-collection index metadata recorded in the catalog: the index name
and its ident. -/
structure IndexMeta where
  name : String
  ident : String
deriving DecidableEq, Repr

/-- `BSONCollectionCatalogEntry::MetaData`, restricted to what this
translation unit reads: the list of index descriptors. -/
structure CollMeta where
  indexes : List IndexMeta
deriving DecidableEq, Repr

/-- The `KVCatalog` as consumed by this file: the collection list, the
collection-ident map, per-collection metadata, the full referenced-ident
list (`getAllIdents`, which excludes the reserved catalog ident) and the
user-data naming predicate. -/
structure Catalog where
  collections : List String
  collIdent : String → String
  metaData : String → CollMeta
  allIdents : List String
  isUserDataIdent : String → Bool

/-- Modelled from the spec: `KVCatalog::getIndexIdent(opCtx, NS,
indexName)` (the `KVCatalog` implementation is outside this translation
unit).  Per the spec it returns the ident the catalog records for the
named index of the collection, i.e. the ident of the metadata entry with
that name. -/
def Catalog.getIndexIdent (c : Catalog) (coll : String) (indexName : String) : String :=
  match (c.metaData coll).indexes.find? (fun im => im.name == indexName) with
  | some im => im.ident
  | none => ""

/-- The reserved catalog ident `"_mdb_catalog"`. -/
def catalogInfo : String := "_mdb_catalog"

/-- External oracles consumed by `KVStorageEngine`: the replication
predicates of `NamespaceString`, the logical clock, the per-database
handle's `dropCollection` (which acts on the handle's namespace list and
yields a status), and the engine's `repairIdent`. -/
structure Env where
  isReplicated : String → Bool
  isDropPending : String → Bool
  clusterTime : Timestamp
  dropCollection : List String → String → Status × List String
  repairIdentStatus : String → Status

/-- Result of `KVStorageEngine::repairRecordStore`: the returned status,
the resulting state, and whether `reinitCollectionAfterRepair` was
invoked on the per-database handle. -/
structure RepairOut where
  status : Status
  st : St
  reinitCalled : Bool
deriving DecidableEq, Repr

/-- `KVStorageEngine::repairRecordStore(opCtx, ns)`: call
`_engine->repairIdent` on the collection's ident; on error return that
status unchanged; on success call `reinitCollectionAfterRepair` on the
database's handle (an external call on the handle, recorded as a flag)
and return OK. -/
def repairRecordStore (env : Env) (cat : Catalog) (st : St) (ns : String) : RepairOut :=
  let status := env.repairIdentStatus (cat.collIdent ns)
  if status.isOK then
    { status := Status.ok, st := st, reinitCalled := true }
  else
    { status := status, st := st, reinitCalled := false }

/-- The update the drop loops apply to the running `firstError`:
`if (!result.isOK() && firstError.isOK()) firstError = result`. -/
def stepFirstError (firstError result : Status) : Status :=
  if !result.isOK && firstError.isOK then result else firstError

/-- The `firstError` accumulation of a drop loop applied, in order, to the
per-collection results. -/
def collectFirstError : Status → List Status → Status
  | fe, [] => fe
  | fe, s :: rest => collectFirstError (stepFirstError fe s) rest

/-- The first non-OK status of a list, or OK when all are OK (the
spec-side reading of "the first error seen"). -/
def firstErrorOf (l : List Status) : Status :=
  match l.find? (fun s => !s.isOK) with
  | some s => s
  | none => Status.ok

/-- The predicate of `_dropCollectionsNoTimestamp`'s invariant:
`!nss.isReplicated() || nss.coll().startsWith("tmp.mr") ||
nss.isSystemDotIndexes()`. -/
def phaseAPred (env : Env) (ns : String) : Bool :=
  !env.isReplicated ns || strStartsWith (nsColl ns) "tmp.mr" || nsColl ns == "system.indexes"

/-- The per-collection loop of `_dropCollectionsNoTimestamp`: for each
namespace, when `_initialDataTimestamp` is not the unstable-checkpoints
sentinel, `invariant` that the namespace is droppable without a timestamp
(fatal otherwise); then call `dbce->dropCollection` (which updates the
handle's namespace list) and record its result.  Returns the final
namespace list of the handle together with the `(namespace, status)`
results in execution order. -/
def phaseALoop (env : Env) (initTs : Timestamp) :
    List String → List String → Outcome (List String × List (String × Status))
  | [], nss => .ok (nss, [])
  | coll :: rest, nss =>
      if initTs ≠ Timestamp.sentinel ∧ phaseAPred env coll = false then
        .fatal ("Collection drop is not being timestamped. Namespace: " ++ coll)
      else
        let r := env.dropCollection nss coll
        match phaseALoop env initTs rest r.2 with
        | .fatal m => .fatal m
        | .ok (nssF, results) => .ok (nssF, (coll, r.1) :: results)

/-- Result of one drop phase: the status it returns, the state after it,
the `(namespace, status)` pairs of the attempted drops in order, and
whether the phase's `WriteUnitOfWork` committed. -/
structure PhaseOut where
  firstError : Status
  st : St
  results : List (String × Status)
  committed : Bool
deriving DecidableEq, Repr

/-- `KVStorageEngine::_dropCollectionsNoTimestamp(opCtx, dbce, begin,
end)`: save the commit timestamp and clear it when set; under a
`WriteUnitOfWork`, attempt to drop every collection of the range,
collecting the first error; commit; the scoped guard restores the saved
commit timestamp when it was non-null. -/
def dropCollectionsNoTimestamp (env : Env) (st : St) (entryId : Nat)
    (colls : List String) : Outcome PhaseOut :=
  let commitTs := st.ru.commitTs
  let ru1 := if commitTs.isNull then st.ru else { st.ru with commitTs := Timestamp.null }
  let nss0 := (alookup st.entries entryId).getD []
  match phaseALoop env st.initialDataTimestamp colls nss0 with
  | .fatal m => .fatal m
  | .ok (nssF, results) =>
      let ru2 := if commitTs.isNull then ru1 else { ru1 with commitTs := commitTs }
      .ok { firstError := collectFirstError Status.ok (results.map Prod.snd),
            st := { st with ru := ru2, entries := aset st.entries entryId nssF },
            results := results,
            committed := true }

/-- The per-collection loop of `_dropCollectionsWithTimestamp`: drop each
collection, recording results; no invariant inside the loop. -/
def phaseBLoop (env : Env) :
    List String → List String → List String × List (String × Status)
  | [], nss => (nss, [])
  | coll :: rest, nss =>
      let r := env.dropCollection nss coll
      let p := phaseBLoop env rest r.2
      (p.1, (coll, r.1) :: p.2)

/-- `KVStorageEngine::_dropCollectionsWithTimestamp(opCtx, dbce, toDrop,
begin, end)`: when no commit timestamp is set and the logical clock is
non-null, set the commit timestamp to the clock value; under a
`WriteUnitOfWork`, drop every remaining collection collecting the first
error; `invariant` that the handle then reports no namespaces (fatal
otherwise); under the `_dbsLock`, register a `RemoveDBChange` on the
recovery unit and erase the database from `_dbs`; commit; the scoped
guard clears the commit timestamp iff this call set it. -/
def dropCollectionsWithTimestamp (env : Env) (st : St) (entryId : Nat) (db : String)
    (colls : List String) : Outcome PhaseOut :=
  let existingCommitTs := st.ru.commitTs
  let chosenCommitTs := env.clusterTime
  let setCommitTs := existingCommitTs.isNull && !chosenCommitTs.isNull
  let ru1 := if setCommitTs then { st.ru with commitTs := chosenCommitTs } else st.ru
  let nss0 := (alookup st.entries entryId).getD []
  let p := phaseBLoop env colls nss0
  if p.1 ≠ [] then
    .fatal "invariant failure: toDrop.empty()"
  else
    let ru2 := { ru1 with changes := Change.removeDB db entryId :: ru1.changes }
    let ru3 := if setCommitTs then { ru2 with commitTs := Timestamp.null } else ru2
    .ok { firstError := collectFirstError Status.ok (p.2.map Prod.snd),
          st := { st with
                    ru := ru3,
                    dbs := aerase st.dbs db,
                    entries := aset st.entries entryId p.1 },
          results := p.2,
          committed := true }

/-- Result of `KVStorageEngine::dropDatabase`: the returned status, the
resulting state, the per-phase drop results, and the commit flags of the
two phases' write units of work. -/
structure DropOut where
  status : Status
  st : St
  resultsA : List (String × Status)
  resultsB : List (String × Status)
  phaseACommitted : Bool
  phaseBCommitted : Bool
deriving DecidableEq, Repr

/-- `KVStorageEngine::dropDatabase(opCtx, db)`: find the database's entry
in `_dbs` (error `NamespaceNotFound` on a miss); enumerate its
namespaces; partition them into non-drop-pending (Phase A) and
drop-pending (Phase B) ranges; run `_dropCollectionsNoTimestamp` on the
first range then `_dropCollectionsWithTimestamp` on the second; return
the first error seen, or OK. -/
def dropDatabase (env : Env) (st : St) (db : String) : Outcome DropOut :=
  match alookup st.dbs db with
  | none =>
      .ok { status := Status.err ErrorCode.NamespaceNotFound "db not found to drop",
            st := st, resultsA := [], resultsB := [],
            phaseACommitted := false, phaseBCommitted := false }
  | some entryId =>
      let toDrop := (alookup st.entries entryId).getD []
      let untimestamped := toDrop.filter (fun ns => !env.isDropPending ns)
      let timestamped := toDrop.filter (fun ns => env.isDropPending ns)
      match dropCollectionsNoTimestamp env st entryId untimestamped with
      | .fatal m => .fatal m
      | .ok pa =>
          match dropCollectionsWithTimestamp env pa.st entryId db timestamped with
          | .fatal m => .fatal m
          | .ok pb =>
              .ok { status := if pa.firstError.isOK then pb.firstError else pa.firstError,
                    st := pb.st,
                    resultsA := pa.results, resultsB := pb.results,
                    phaseACommitted := pa.committed, phaseBCommitted := pb.committed }

/-- Fire the rollback side of every change registered on the recovery
unit, most recent first (the order an aborting transaction uses). -/
def rollbackAll (s : St) : St :=
  s.ru.changes.foldl (fun t c => { t with dbs := c.applyRollback t.dbs }) s

/-- The engine ident set of `reconcileCatalogAndIdents`: the engine's
`getAllIdents` vector collected into a `std::set` with the reserved
catalog ident erased.  Modelled as the deduplicated list of the vector's
elements other than `catalogInfo`; only membership in the set is used by
the procedure, which this preserves exactly. -/
def engineIdentSet (engineVec : List String) : List String :=
  (engineVec.filter (fun i => i ≠ catalogInfo)).dedup

/-- The drop loop of `reconcileCatalogAndIdents`: for each engine ident
not known to the catalog and classified as user data, drop it from the
engine inside a committed `WriteUnitOfWork`; a failing `dropIdent` is a
fatal `fassertStatusOK(40591, ...)`.  Returns the idents actually dropped
(in iteration order) and whether an fassert fired. -/
def reconcileDropLoop (dropIdentStatus : String → Status) (cat : Catalog) :
    List String → List String × Bool
  | [] => ([], false)
  | i :: rest =>
      if i ∈ cat.allIdents then reconcileDropLoop dropIdentStatus cat rest
      else if !cat.isUserDataIdent i then reconcileDropLoop dropIdentStatus cat rest
      else if (dropIdentStatus i).isOK then
        let p := reconcileDropLoop dropIdentStatus cat rest
        (i :: p.1, p.2)
      else ([], true)

/-- The non-fatal result of `reconcileCatalogAndIdents`: either an error
status or the list of `(collection namespace, index name)` pairs to
rebuild. -/
inductive RecRes
  | err (code : ErrorCode) (msg : String)
  | ok (rebuild : List (String × String))
deriving DecidableEq, Repr

/-- What running `reconcileCatalogAndIdents` did: which idents it dropped
from the engine, and how it ended (fatal fassert, error status, or the
rebuild list). -/
structure RecResult where
  dropped : List String
  res : Outcome RecRes
deriving DecidableEq, Repr

/-- The error message of `reconcileCatalogAndIdents`'s missing-collection
failure. -/
def missingCollMsg (coll ident : String) : String :=
  "Expected collection does not exist. NS: " ++ coll ++ " Ident: " ++ ident

/-- `KVStorageEngine::reconcileCatalogAndIdents(opCtx)`:
1. drop every engine ident (minus the reserved catalog ident) that the
   catalog does not reference and that is a user-data ident;
2. for each catalog collection whose ident is missing from the engine
   set, return `UnrecoverableRollbackError` naming the namespace and
   ident (the loop returns at the first such collection);
3. otherwise return, for each catalog collection, the indexes whose
   catalog ident is missing from the engine set. -/
def reconcileCatalogAndIdents (engineVec : List String) (cat : Catalog)
    (dropIdentStatus : String → Status) : RecResult :=
  let engineIdents := engineIdentSet engineVec
  let p := reconcileDropLoop dropIdentStatus cat engineIdents
  if p.2 then { dropped := p.1, res := .fatal "fassertStatusOK(40591, dropIdent)" }
  else
    match cat.collections.find? (fun coll => !decide (cat.collIdent coll ∈ engineIdents)) with
    | some coll =>
        { dropped := p.1,
          res := .ok (.err ErrorCode.UnrecoverableRollbackError
                        (missingCollMsg coll (cat.collIdent coll))) }
    | none =>
        { dropped := p.1,
          res := .ok (.ok ((cat.collections.map (fun coll =>
            ((cat.metaData coll).indexes.filter
                (fun im => !decide (cat.getIndexIdent coll im.name ∈ engineIdents))).map
              (fun im => (coll, im.name)))).flatten)) }

/-! ## Helper lemmas -/

theorem alookup_aset_self {α β : Type} [DecidableEq α] (l : List (α × β)) (k : α) (v : β) :
    alookup (aset l k v) k = some v := by
  induction l with
  | nil => simp [aset, alookup]
  | cons p rest ih =>
      obtain ⟨a, b⟩ := p
      by_cases h : a = k <;> simp [aset, alookup, h, ih]

/-! ## Shared concrete states and environments for witnesses -/

/-- A small concrete coordinator state with no databases. -/
def stEmpty : St :=
  { dbs := [], nextId := 5, entries := [],
    ru := { commitTs := Timestamp.null, changes := [] },
    initialDataTimestamp := Timestamp.null,
    engineNull := false, engineShutdownCalled := false, catalogOpen := true }

/-! ## Claims -/

/-- Claim C1, as stated, is false on the code: `cleanShutdown()` clears
`_dbs` and the catalog and calls `_engine->cleanShutdown()`, but leaves
the `_engine` pointer intact ("intentionally not deleting _engine"), so a
subsequent `newRecoveryUnit()` does not take the null-engine branch and
still forwards to the engine.  Concretely, from a state with a live
engine, after `cleanShutdown` the next `newRecoveryUnit` is not none. -/
theorem C1_counterexample :
    newRecoveryUnit (cleanShutdown
      { dbs := [("admin", 0)], nextId := 1, entries := [(0, [])],
        ru := { commitTs := Timestamp.null, changes := [] },
        initialDataTimestamp := Timestamp.null,
        engineNull := false, engineShutdownCalled := false, catalogOpen := true }) ≠
      none := by
  decide

/-- Claim C1 amended: `newRecoveryUnit` returns none exactly when the
`_engine` pointer is null, and `cleanShutdown` leaves that pointer
unchanged; hence after `cleanShutdown` the calls return none only when
the engine pointer was already null, and otherwise keep forwarding to the
engine. -/
theorem C1_amended (st : St) :
    (cleanShutdown st).engineNull = st.engineNull ∧
    (newRecoveryUnit (cleanShutdown st) = none ↔ st.engineNull = true) := by
  refine ⟨rfl, ?_⟩
  unfold newRecoveryUnit cleanShutdown
  by_cases h : st.engineNull <;> simp [h]

/-- Claim C9: `getDatabaseCatalogEntry` always hands back a handle that is
stored in the `_dbs` map (never a null handle); a second call with the
same name returns the same handle instance and leaves the state
untouched; a miss creates the entry through the factory (the fresh id)
and a hit returns the stored entry without modifying anything. -/
theorem C9_getDatabaseCatalogEntry (st : St) (db : String) :
    alookup (getDatabaseCatalogEntry st db).2.dbs db =
      some (getDatabaseCatalogEntry st db).1 ∧
    (getDatabaseCatalogEntry (getDatabaseCatalogEntry st db).2 db).1 =
      (getDatabaseCatalogEntry st db).1 ∧
    (getDatabaseCatalogEntry (getDatabaseCatalogEntry st db).2 db).2 =
      (getDatabaseCatalogEntry st db).2 ∧
    (alookup st.dbs db = none → (getDatabaseCatalogEntry st db).1 = st.nextId) ∧
    (∀ h, alookup st.dbs db = some h →
      (getDatabaseCatalogEntry st db).1 = h ∧ (getDatabaseCatalogEntry st db).2 = st) := by
  rcases heq : alookup st.dbs db with _ | h
  · have hstore : alookup (aset st.dbs db st.nextId) db = some st.nextId :=
      alookup_aset_self st.dbs db st.nextId
    refine ⟨?_, ?_, ?_, fun _ => ?_, fun h hcontra => ?_⟩
    · simp [getDatabaseCatalogEntry, heq, hstore]
    · simp [getDatabaseCatalogEntry, heq, hstore]
    · simp [getDatabaseCatalogEntry, heq, hstore]
    · simp [getDatabaseCatalogEntry, heq]
    · exact absurd hcontra (by simp)
  · refine ⟨?_, ?_, ?_, fun hcontra => ?_, fun h2 h2eq => ?_⟩
    · simp [getDatabaseCatalogEntry, heq]
    · simp [getDatabaseCatalogEntry, heq]
    · simp [getDatabaseCatalogEntry, heq]
    · exact absurd hcontra (by simp)
    · obtain rfl : h = h2 := by injection h2eq
      simp [getDatabaseCatalogEntry, heq]

/-- Claim C9 witness: on a fresh state with no databases, the first lookup
of `"d"` creates the entry via the factory (id `5`, the state's fresh
id). -/
theorem C9_witness : (getDatabaseCatalogEntry stEmpty "d").1 = stEmpty.nextId :=
  (C9_getDatabaseCatalogEntry stEmpty "d").2.2.2.1 rfl

theorem isNull_eq_null {t : Timestamp} (h : t.isNull = true) : t = Timestamp.null := by
  obtain ⟨s, i⟩ := t
  simp only [Timestamp.isNull, Bool.and_eq_true, beq_iff_eq] at h
  simp [Timestamp.null, h.1, h.2]

theorem isOK_iff {s : Status} : s.isOK = true ↔ s = Status.ok := by
  cases s <;> simp [Status.isOK]

theorem collectFirstError_notOK (l : List Status) :
    ∀ fe : Status, fe.isOK = false → collectFirstError fe l = fe := by
  induction l with
  | nil => intro fe _; rfl
  | cons s rest ih =>
      intro fe hfe
      have hstep : stepFirstError fe s = fe := by
        simp [stepFirstError, hfe]
      simp only [collectFirstError, hstep]
      exact ih fe hfe

theorem collectFirstError_ok (l : List Status) :
    collectFirstError Status.ok l = firstErrorOf l := by
  induction l with
  | nil => rfl
  | cons s rest ih =>
      cases hs : s.isOK with
      | true =>
          obtain rfl : s = Status.ok := isOK_iff.mp hs
          have hstep : stepFirstError Status.ok Status.ok = Status.ok := rfl
          have hfe : firstErrorOf (Status.ok :: rest) = firstErrorOf rest := by
            simp [firstErrorOf, List.find?, Status.isOK]
          simp only [collectFirstError, hstep, ih, hfe]
      | false =>
          have hstep : stepFirstError Status.ok s = s := by
            unfold stepFirstError
            rw [hs]
            rfl
          have hfe : firstErrorOf (s :: rest) = s := by
            simp [firstErrorOf, List.find?, hs]
          simp only [collectFirstError, hstep, hfe]
          exact collectFirstError_notOK rest s hs

theorem firstErrorOf_append (a b : List Status) :
    firstErrorOf (a ++ b) =
      if (firstErrorOf a).isOK then firstErrorOf b else firstErrorOf a := by
  induction a with
  | nil => simp [firstErrorOf, List.find?, Status.isOK]
  | cons s rest ih =>
      cases hs : s.isOK
      · simp [firstErrorOf, List.find?, hs]
      · obtain rfl : s = Status.ok := isOK_iff.mp hs
        simpa [firstErrorOf, List.find?, Status.isOK] using ih

theorem phaseALoop_ok_fst (env : Env) (initTs : Timestamp) :
    ∀ (colls nss nssF : List String) (results : List (String × Status)),
      phaseALoop env initTs colls nss = .ok (nssF, results) →
      results.map Prod.fst = colls := by
  intro colls
  induction colls with
  | nil =>
      intro nss nssF results h
      simp only [phaseALoop, Outcome.ok.injEq, Prod.mk.injEq] at h
      rw [← h.2]
      rfl
  | cons coll rest ih =>
      intro nss nssF results h
      simp only [phaseALoop] at h
      split at h
      · exact absurd h (by simp)
      · cases hrec : phaseALoop env initTs rest (env.dropCollection nss coll).2 with
        | fatal m =>
            rw [hrec] at h
            exact absurd h (by simp)
        | ok p =>
            obtain ⟨nssR, resultsR⟩ := p
            rw [hrec] at h
            simp only [Outcome.ok.injEq, Prod.mk.injEq] at h
            rw [← h.2, List.map_cons, ih _ _ _ hrec]

theorem phaseBLoop_fst (env : Env) :
    ∀ (colls nss : List String), (phaseBLoop env colls nss).2.map Prod.fst = colls := by
  intro colls
  induction colls with
  | nil => intro nss; rfl
  | cons coll rest ih =>
      intro nss
      simp only [phaseBLoop, List.map_cons]
      rw [ih]

theorem dropCollectionsNoTimestamp_ok (env : Env) (st : St) (entryId : Nat)
    (colls : List String) (pa : PhaseOut)
    (h : dropCollectionsNoTimestamp env st entryId colls = .ok pa) :
    pa.st.ru.commitTs = st.ru.commitTs ∧
    pa.st.ru.changes = st.ru.changes ∧
    pa.st.dbs = st.dbs ∧
    pa.st.nextId = st.nextId ∧
    pa.results.map Prod.fst = colls ∧
    pa.firstError = collectFirstError Status.ok (pa.results.map Prod.snd) ∧
    pa.committed = true := by
  unfold dropCollectionsNoTimestamp at h
  dsimp only at h
  cases hloop : phaseALoop env st.initialDataTimestamp colls
      ((alookup st.entries entryId).getD []) with
  | fatal m =>
      rw [hloop] at h
      exact absurd h (by simp)
  | ok p =>
      obtain ⟨nssF, results⟩ := p
      rw [hloop] at h
      simp only [Outcome.ok.injEq] at h
      subst h
      refine ⟨?_, ?_, rfl, rfl, phaseALoop_ok_fst env _ _ _ _ _ hloop, rfl, rfl⟩
      · cases hn : st.ru.commitTs.isNull <;> simp [hn]
      · cases hn : st.ru.commitTs.isNull <;> simp [hn]

theorem dropCollectionsWithTimestamp_ok (env : Env) (st : St) (entryId : Nat)
    (db : String) (colls : List String) (pb : PhaseOut)
    (h : dropCollectionsWithTimestamp env st entryId db colls = .ok pb) :
    pb.st.ru.commitTs = st.ru.commitTs ∧
    pb.st.ru.changes = Change.removeDB db entryId :: st.ru.changes ∧
    pb.st.dbs = aerase st.dbs db ∧
    pb.st.nextId = st.nextId ∧
    pb.results.map Prod.fst = colls ∧
    pb.firstError = collectFirstError Status.ok (pb.results.map Prod.snd) ∧
    pb.committed = true := by
  unfold dropCollectionsWithTimestamp at h
  dsimp only at h
  split at h
  · exact absurd h (by simp)
  · simp only [Outcome.ok.injEq] at h
    subst h
    refine ⟨?_, ?_, rfl, rfl, ?_, rfl, rfl⟩
    · cases hset : st.ru.commitTs.isNull && !env.clusterTime.isNull with
      | false => simp [hset]
      | true =>
          have h1 : st.ru.commitTs.isNull = true := (Bool.and_eq_true _ _ ▸ hset).1
          simp [hset, isNull_eq_null h1]
    · cases hset : st.ru.commitTs.isNull && !env.clusterTime.isNull <;> simp [hset]
    · exact phaseBLoop_fst env colls _

/-- Claim C2: whenever `dropDatabase` returns (with success or with an
error status), the current transaction's commit timestamp equals its
value at entry — Phase A saves/clears and its guard restores, Phase B
sets from the logical clock only when unset and its guard clears exactly
when it set. -/
theorem C2_commit_timestamp (env : Env) (st : St) (db : String) (out : DropOut)
    (h : dropDatabase env st db = .ok out) :
    out.st.ru.commitTs = st.ru.commitTs := by
  unfold dropDatabase at h
  cases hdb : alookup st.dbs db with
  | none =>
      rw [hdb] at h
      simp only [Outcome.ok.injEq] at h
      subst h
      rfl
  | some entryId =>
      rw [hdb] at h
      dsimp only at h
      split at h
      · exact absurd h (by simp)
      · rename_i pa hA
        split at h
        · exact absurd h (by simp)
        · rename_i pb hB
          simp only [Outcome.ok.injEq] at h
          subst h
          have h1 := dropCollectionsNoTimestamp_ok env st entryId _ pa hA
          have h2 := dropCollectionsWithTimestamp_ok env pa.st entryId db _ pb hB
          dsimp only
          rw [h2.1, h1.1]

/-- A working environment: every collection replicated, nothing
drop-pending, a non-null logical clock, and a `dropCollection` that
succeeds and removes the namespace from the handle. -/
def envDrop : Env :=
  { isReplicated := fun _ => true, isDropPending := fun _ => false,
    clusterTime := ⟨1, 0⟩,
    dropCollection := fun nss ns => (Status.ok, nss.erase ns),
    repairIdentStatus := fun _ => Status.ok }

/-- A state holding one database `d` (handle id 0) with one collection
`d.a`, in unstable-checkpoints mode. -/
def stOneDB : St :=
  { dbs := [("d", 0)], nextId := 1, entries := [(0, ["d.a"])],
    ru := { commitTs := Timestamp.null, changes := [] },
    initialDataTimestamp := Timestamp.sentinel,
    engineNull := false, engineShutdownCalled := false, catalogOpen := true }

/-- Claim C2 witness: a concrete successful `dropDatabase` run whose exit
commit timestamp equals the entry one. -/
theorem C2_witness :
    ∃ out, dropDatabase envDrop stOneDB "d" = Outcome.ok out ∧
      out.st.ru.commitTs = stOneDB.ru.commitTs := by
  obtain ⟨out, h⟩ : ∃ out, dropDatabase envDrop stOneDB "d" = Outcome.ok out := ⟨_, rfl⟩
  exact ⟨out, h, C2_commit_timestamp envDrop stOneDB "d" out h⟩

/-- Claim C6: when `dropDatabase` returns, every collection of each phase
was attempted (in order) even when earlier drops failed, Phase A's write
unit of work committed regardless of per-collection errors, and the
returned status is the first error among the drop results of both phases,
or OK when none failed. -/
theorem C6_drop_database_errors (env : Env) (st : St) (db : String) (out : DropOut)
    (entryId : Nat) (hdb : alookup st.dbs db = some entryId)
    (h : dropDatabase env st db = .ok out) :
    out.resultsA.map Prod.fst =
      ((alookup st.entries entryId).getD []).filter (fun ns => !env.isDropPending ns) ∧
    out.resultsB.map Prod.fst =
      ((alookup st.entries entryId).getD []).filter (fun ns => env.isDropPending ns) ∧
    out.phaseACommitted = true ∧
    out.status = firstErrorOf ((out.resultsA ++ out.resultsB).map Prod.snd) := by
  unfold dropDatabase at h
  rw [hdb] at h
  dsimp only at h
  split at h
  · exact absurd h (by simp)
  · rename_i pa hA
    split at h
    · exact absurd h (by simp)
    · rename_i pb hB
      simp only [Outcome.ok.injEq] at h
      subst h
      have h1 := dropCollectionsNoTimestamp_ok env st entryId _ pa hA
      have h2 := dropCollectionsWithTimestamp_ok env pa.st entryId db _ pb hB
      dsimp only
      refine ⟨h1.2.2.2.2.1, h2.2.2.2.2.1, h1.2.2.2.2.2.2, ?_⟩
      rw [List.map_append, firstErrorOf_append]
      rw [h1.2.2.2.2.2.1, h2.2.2.2.2.2.1, collectFirstError_ok, collectFirstError_ok]

/-- An environment where dropping `d.a` fails (but the namespace is still
removed from the handle), and every other drop succeeds. -/
def envDropFail : Env :=
  { isReplicated := fun _ => true, isDropPending := fun _ => false,
    clusterTime := ⟨1, 0⟩,
    dropCollection := fun nss ns =>
      ((if ns = "d.a" then Status.err ErrorCode.BadValue "boom" else Status.ok),
        nss.erase ns),
    repairIdentStatus := fun _ => Status.ok }

/-- A state holding one database `d` (handle id 0) with collections
`d.a` and `d.b`, in unstable-checkpoints mode. -/
def stTwoColl : St :=
  { dbs := [("d", 0)], nextId := 1, entries := [(0, ["d.a", "d.b"])],
    ru := { commitTs := Timestamp.null, changes := [] },
    initialDataTimestamp := Timestamp.sentinel,
    engineNull := false, engineShutdownCalled := false, catalogOpen := true }

/-- Claim C6 witness: with the first drop failing, both collections are
still attempted, Phase A commits, and the failing status comes back. -/
theorem C6_witness :
    ∃ out, dropDatabase envDropFail stTwoColl "d" = Outcome.ok out ∧
      (out.resultsA.map Prod.fst =
        ((alookup stTwoColl.entries 0).getD []).filter
          (fun ns => !envDropFail.isDropPending ns) ∧
       out.resultsB.map Prod.fst =
        ((alookup stTwoColl.entries 0).getD []).filter
          (fun ns => envDropFail.isDropPending ns) ∧
       out.phaseACommitted = true ∧
       out.status = firstErrorOf ((out.resultsA ++ out.resultsB).map Prod.snd)) := by
  obtain ⟨out, h⟩ : ∃ out, dropDatabase envDropFail stTwoColl "d" = Outcome.ok out :=
    ⟨_, rfl⟩
  exact ⟨out, h, C6_drop_database_errors envDropFail stTwoColl "d" out 0 rfl h⟩

/-- Claim C7: a returning `dropDatabase` registers exactly one
`RemoveDBChange` holding the database name and the removed handle; if the
wrapping transaction then aborts (firing the registered rollbacks), the
entry is reinserted under the same name and a subsequent
`getDatabaseCatalogEntry` returns that very handle instance without
creating a fresh one (the state, in particular the factory counter, is
untouched). -/
theorem C7_rollback_reinserts (env : Env) (st : St) (db : String) (out : DropOut)
    (entryId : Nat) (hch : st.ru.changes = [])
    (hdb : alookup st.dbs db = some entryId)
    (h : dropDatabase env st db = .ok out) :
    out.st.ru.changes = [Change.removeDB db entryId] ∧
    (getDatabaseCatalogEntry (rollbackAll out.st) db).1 = entryId ∧
    (getDatabaseCatalogEntry (rollbackAll out.st) db).2 = rollbackAll out.st := by
  unfold dropDatabase at h
  rw [hdb] at h
  dsimp only at h
  split at h
  · exact absurd h (by simp)
  · rename_i pa hA
    split at h
    · exact absurd h (by simp)
    · rename_i pb hB
      simp only [Outcome.ok.injEq] at h
      subst h
      have h1 := dropCollectionsNoTimestamp_ok env st entryId _ pa hA
      have h2 := dropCollectionsWithTimestamp_ok env pa.st entryId db _ pb hB
      have hchanges : pb.st.ru.changes = [Change.removeDB db entryId] := by
        rw [h2.2.1, h1.2.1, hch]
      have hroll : rollbackAll pb.st =
          { pb.st with dbs := aset pb.st.dbs db entryId } := by
        unfold rollbackAll
        rw [hchanges]
        rfl
      have hfound : alookup (rollbackAll pb.st).dbs db = some entryId := by
        rw [hroll]
        exact alookup_aset_self pb.st.dbs db entryId
      refine ⟨hchanges, ?_, ?_⟩ <;> simp [getDatabaseCatalogEntry, hfound]

/-- Claim C7 witness: after dropping database `d`, rolling back the
registered change makes `getDatabaseCatalogEntry` return the original
handle id 0. -/
theorem C7_witness :
    ∃ out, dropDatabase envDrop stOneDB "d" = Outcome.ok out ∧
      (getDatabaseCatalogEntry (rollbackAll out.st) "d").1 = 0 := by
  obtain ⟨out, h⟩ : ∃ out, dropDatabase envDrop stOneDB "d" = Outcome.ok out := ⟨_, rfl⟩
  exact ⟨out, h, (C7_rollback_reinserts envDrop stOneDB "d" out 0 rfl rfl h).2.1⟩

theorem phaseAPred_false_iff (env : Env) (ns : String) :
    phaseAPred env ns = false ↔
      ¬(env.isReplicated ns = false ∨ strStartsWith (nsColl ns) "tmp.mr" = true ∨
        nsColl ns = "system.indexes") := by
  simp only [phaseAPred, Bool.or_eq_false_iff, Bool.not_eq_false', beq_eq_false_iff_ne,
    not_or, ne_eq]
  constructor
  · rintro ⟨⟨h1, h2⟩, h3⟩
    exact ⟨by simp [h1], by simp [h2], h3⟩
  · rintro ⟨h1, h2, h3⟩
    exact ⟨⟨by simpa using h1, by simpa using h2⟩, h3⟩

theorem phaseALoop_fatal_iff (env : Env) (initTs : Timestamp)
    (hts : initTs ≠ Timestamp.sentinel) :
    ∀ (colls nss : List String),
      (phaseALoop env initTs colls nss).isFatal = true ↔
        ∃ ns ∈ colls, phaseAPred env ns = false := by
  intro colls
  induction colls with
  | nil =>
      intro nss
      simp [phaseALoop, Outcome.isFatal]
  | cons coll rest ih =>
      intro nss
      simp only [phaseALoop]
      by_cases hp : phaseAPred env coll = false
      · rw [if_pos ⟨hts, hp⟩]
        simp only [Outcome.isFatal, true_iff]
        exact ⟨coll, List.mem_cons_self _ _, hp⟩
      · rw [if_neg (fun hcon => hp hcon.2)]
        cases hrec : phaseALoop env initTs rest (env.dropCollection nss coll).2 with
        | fatal m =>
            simp only [Outcome.isFatal, true_iff]
            have hex := (ih _).mp (by rw [hrec]; rfl)
            rcases hex with ⟨ns, hns, hpred⟩
            exact ⟨ns, List.mem_cons_of_mem _ hns, hpred⟩
        | ok p =>
            obtain ⟨nssF, results⟩ := p
            simp only [Outcome.isFatal, Bool.false_eq_true, false_iff]
            rintro ⟨ns, hns, hpred⟩
            rcases List.mem_cons.mp hns with rfl | hmem
            · exact hp hpred
            · have := (ih (env.dropCollection nss coll).2).mpr ⟨ns, hmem, hpred⟩
              rw [hrec] at this
              simp [Outcome.isFatal] at this

/-- Claim C8: when the cached `_initialDataTimestamp` is not the
allow-unstable-checkpoints sentinel, Phase A of `dropDatabase`
(`_dropCollectionsNoTimestamp`) ends in a fatal invariant failure exactly
when some namespace of the phase violates
`!isReplicated(NS) || NS.coll.startsWith("tmp.mr") || NS == system.indexes`;
hence any violating namespace is fatal and, under that precondition,
every phase that returns processed only namespaces satisfying the
predicate — the assertion's failure branch fires on no other input. -/
theorem C8_phaseA_invariant (env : Env) (st : St) (entryId : Nat) (colls : List String)
    (hts : st.initialDataTimestamp ≠ Timestamp.sentinel) :
    (dropCollectionsNoTimestamp env st entryId colls).isFatal = true ↔
      ∃ ns ∈ colls, ¬(env.isReplicated ns = false ∨
        strStartsWith (nsColl ns) "tmp.mr" = true ∨ nsColl ns = "system.indexes") := by
  have hloop := phaseALoop_fatal_iff env st.initialDataTimestamp hts colls
    ((alookup st.entries entryId).getD [])
  unfold dropCollectionsNoTimestamp
  dsimp only
  cases hrec : phaseALoop env st.initialDataTimestamp colls
      ((alookup st.entries entryId).getD []) with
  | fatal m =>
      rw [hrec] at hloop
      simp only [Outcome.isFatal, true_iff] at hloop ⊢
      rcases hloop with ⟨ns, hns, hpred⟩
      exact ⟨ns, hns, (phaseAPred_false_iff env ns).mp hpred⟩
  | ok p =>
      obtain ⟨nssF, results⟩ := p
      rw [hrec] at hloop
      simp only [Outcome.isFatal, Bool.false_eq_true, false_iff] at hloop ⊢
      rintro ⟨ns, hns, hpred⟩
      exact hloop ⟨ns, hns, (phaseAPred_false_iff env ns).mpr hpred⟩

/-- A state like `stOneDB` but with a cached initial-data timestamp that
is a real (non-sentinel) timestamp, i.e. stable-checkpoint mode. -/
def stStable : St := setInitialDataTimestamp stOneDB ⟨42, 0⟩

/-- Claim C8 witness: in stable-checkpoint mode, attempting an
untimestamped drop of the replicated, non-special namespace `d.a` is a
fatal invariant breach. -/
theorem C8_witness :
    (dropCollectionsNoTimestamp envDrop stStable 0 ["d.a"]).isFatal = true :=
  (C8_phaseA_invariant envDrop stStable 0 ["d.a"] (by decide)).mpr
    ⟨"d.a", by decide, by decide⟩

theorem mem_engineIdentSet {i : String} {ev : List String} :
    i ∈ engineIdentSet ev ↔ i ∈ ev ∧ i ≠ catalogInfo := by
  simp [engineIdentSet, List.mem_dedup, List.mem_filter]

theorem reconcile_dropped_eq (ev : List String) (cat : Catalog) (ds : String → Status) :
    (reconcileCatalogAndIdents ev cat ds).dropped =
      (reconcileDropLoop ds cat (engineIdentSet ev)).1 := by
  unfold reconcileCatalogAndIdents
  dsimp only
  split
  · rfl
  · split <;> rfl

theorem reconcileDropLoop_subset (ds : String → Status) (cat : Catalog) :
    ∀ (l : List String) (i : String), i ∈ (reconcileDropLoop ds cat l).1 →
      i ∈ l ∧ i ∉ cat.allIdents ∧ cat.isUserDataIdent i = true := by
  intro l
  induction l with
  | nil =>
      intro i h
      simp [reconcileDropLoop] at h
  | cons a rest ih =>
      intro i h
      simp only [reconcileDropLoop] at h
      by_cases h1 : a ∈ cat.allIdents
      · rw [if_pos h1] at h
        rcases ih i h with ⟨hl, hni, hu⟩
        exact ⟨List.mem_cons_of_mem _ hl, hni, hu⟩
      · rw [if_neg h1] at h
        cases hu : cat.isUserDataIdent a with
        | false =>
            rw [hu] at h
            simp only [Bool.not_false, if_true] at h
            rcases ih i h with ⟨hl, hni, hu2⟩
            exact ⟨List.mem_cons_of_mem _ hl, hni, hu2⟩
        | true =>
            rw [hu] at h
            simp only [Bool.not_true, Bool.false_eq_true, if_false] at h
            cases hok : (ds a).isOK with
            | false =>
                rw [hok] at h
                simp at h
            | true =>
                rw [hok] at h
                simp only [if_true] at h
                rcases List.mem_cons.mp h with rfl | hmem
                · exact ⟨List.mem_cons_self _ _, h1, hu⟩
                · rcases ih i hmem with ⟨hl, hni, hu2⟩
                  exact ⟨List.mem_cons_of_mem _ hl, hni, hu2⟩

theorem reconcileDropLoop_noFatal (ds : String → Status) (cat : Catalog)
    (hds : ∀ i, ds i = Status.ok) :
    ∀ l : List String, (reconcileDropLoop ds cat l).2 = false := by
  intro l
  induction l with
  | nil => rfl
  | cons a rest ih =>
      simp only [reconcileDropLoop]
      by_cases h1 : a ∈ cat.allIdents
      · rw [if_pos h1]; exact ih
      · rw [if_neg h1]
        cases hu : cat.isUserDataIdent a with
        | false => simpa using ih
        | true => simp [hds a, Status.isOK, ih]

/-- Claim C3: every ident the reconcile procedure drops from the engine
was in the engine's ident vector, is not the reserved catalog ident, is
not referenced by the catalog, and is classified as user data — so
reconcile drops only those orphans and nothing else. -/
theorem C3_reconcile_drops_only_orphans (ev : List String) (cat : Catalog)
    (ds : String → Status) (i : String)
    (h : i ∈ (reconcileCatalogAndIdents ev cat ds).dropped) :
    i ∈ ev ∧ i ≠ catalogInfo ∧ i ∉ cat.allIdents ∧ cat.isUserDataIdent i = true := by
  rw [reconcile_dropped_eq] at h
  rcases reconcileDropLoop_subset ds cat (engineIdentSet ev) i h with ⟨hE, hni, hu⟩
  rcases mem_engineIdentSet.mp hE with ⟨hvec, hcat⟩
  exact ⟨hvec, hcat, hni, hu⟩

/-- An engine `dropIdent` oracle that always succeeds. -/
def dropIdentOK : String → Status := fun _ => Status.ok

/-- A catalog that references ident `user.A` for its only collection. -/
def catA : Catalog :=
  { collections := ["db.a"], collIdent := fun _ => "user.A",
    metaData := fun _ => ⟨[]⟩, allIdents := ["user.A"],
    isUserDataIdent := fun _ => true }

/-- Claim C3 witness: with engine idents `{_mdb_catalog, user.A, user.B}`
and a catalog referencing only `user.A`, the orphan `user.B` is dropped
and satisfies all three conditions. -/
theorem C3_witness :
    "user.B" ∈ ["_mdb_catalog", "user.A", "user.B"] ∧ "user.B" ≠ catalogInfo ∧
    "user.B" ∉ catA.allIdents ∧ catA.isUserDataIdent "user.B" = true :=
  C3_reconcile_drops_only_orphans ["_mdb_catalog", "user.A", "user.B"] catA
    dropIdentOK "user.B" (by decide)

/-- Claim C4: if some catalog collection's ident is absent from the
engine's ident set (the engine idents minus the reserved catalog ident),
then — provided the preceding orphan-drop loop does not fassert, e.g.
because every `dropIdent` succeeds — reconcile returns
`UnrecoverableRollbackError` whose message names the offending namespace
and its ident, and returns no rebuild list. -/
theorem C4_reconcile_missing_collection (ev : List String) (cat : Catalog)
    (ds : String → Status) (hds : ∀ i, ds i = Status.ok)
    (coll : String) (hc : coll ∈ cat.collections)
    (hmiss : cat.collIdent coll ∉ engineIdentSet ev) :
    ∃ coll2, coll2 ∈ cat.collections ∧ cat.collIdent coll2 ∉ engineIdentSet ev ∧
      (reconcileCatalogAndIdents ev cat ds).res =
        Outcome.ok (RecRes.err ErrorCode.UnrecoverableRollbackError
          (missingCollMsg coll2 (cat.collIdent coll2))) := by
  have hff := reconcileDropLoop_noFatal ds cat hds (engineIdentSet ev)
  unfold reconcileCatalogAndIdents
  dsimp only
  rw [hff]
  simp only [Bool.false_eq_true, if_false]
  cases hfind : List.find? (fun c => !decide (cat.collIdent c ∈ engineIdentSet ev))
      cat.collections with
  | none =>
      exfalso
      rw [List.find?_eq_none] at hfind
      have := hfind coll hc
      simp only [Bool.not_eq_true', Bool.not_eq_false, decide_eq_true_eq] at this
      exact hmiss this
  | some coll2 =>
      have hmem := List.mem_of_find?_eq_some hfind
      have hpred := List.find?_some hfind
      simp only [Bool.not_eq_true', decide_eq_false_iff_not] at hpred
      exact ⟨coll2, hmem, hpred, rfl⟩

/-- A catalog claiming collection `db.c` with ident `user.C`. -/
def catMissing : Catalog :=
  { collections := ["db.c"], collIdent := fun _ => "user.C",
    metaData := fun _ => ⟨[]⟩, allIdents := ["user.C"],
    isUserDataIdent := fun _ => true }

/-- Claim C4 witness: catalog knows `db.c` with ident `user.C`, the
engine has only the reserved catalog ident, so reconcile reports
`UnrecoverableRollbackError` naming `db.c` and `user.C`. -/
theorem C4_witness :
    ∃ coll2, coll2 ∈ catMissing.collections ∧
      catMissing.collIdent coll2 ∉ engineIdentSet ["_mdb_catalog"] ∧
      (reconcileCatalogAndIdents ["_mdb_catalog"] catMissing dropIdentOK).res =
        Outcome.ok (RecRes.err ErrorCode.UnrecoverableRollbackError
          (missingCollMsg coll2 (catMissing.collIdent coll2))) :=
  C4_reconcile_missing_collection ["_mdb_catalog"] catMissing dropIdentOK
    (fun _ => rfl) "db.c" (by decide) (by decide)

theorem findByName_of_nodup (l : List IndexMeta) (im : IndexMeta)
    (hnd : (l.map IndexMeta.name).Nodup) (him : im ∈ l) :
    l.find? (fun x => x.name == im.name) = some im := by
  induction l with
  | nil => cases him
  | cons a rest ih =>
      rw [List.map_cons, List.nodup_cons] at hnd
      rcases List.mem_cons.mp him with rfl | hmem
      · simp [List.find?]
      · have hna : (a.name == im.name) = false := by
          rw [beq_eq_false_iff_ne]
          intro hEq
          exact hnd.1 (hEq ▸ List.mem_map_of_mem IndexMeta.name hmem)
        rw [List.find?, hna]
        exact ih hnd.2 hmem

theorem getIndexIdent_of_mem (cat : Catalog) (coll : String) (im : IndexMeta)
    (hnd : ((cat.metaData coll).indexes.map IndexMeta.name).Nodup)
    (him : im ∈ (cat.metaData coll).indexes) :
    cat.getIndexIdent coll im.name = im.ident := by
  unfold Catalog.getIndexIdent
  rw [findByName_of_nodup _ im hnd him]

/-- Claim C5: when reconcile returns successfully and every collection's
index names are distinct (a catalog invariant), a pair
`(NS, indexName)` appears in the rebuild output iff the catalog records
an index of that name on that collection whose ident is not in the
engine's ident set. -/
theorem C5_reconcile_rebuild (ev : List String) (cat : Catalog) (ds : String → Status)
    (rebuild : List (String × String))
    (hok : (reconcileCatalogAndIdents ev cat ds).res = Outcome.ok (RecRes.ok rebuild))
    (hnd : ∀ coll ∈ cat.collections, ((cat.metaData coll).indexes.map IndexMeta.name).Nodup)
    (coll idx : String) :
    (coll, idx) ∈ rebuild ↔
      coll ∈ cat.collections ∧
      ∃ im ∈ (cat.metaData coll).indexes, im.name = idx ∧
        im.ident ∉ engineIdentSet ev := by
  unfold reconcileCatalogAndIdents at hok
  dsimp only at hok
  rcases hp2 : (reconcileDropLoop ds cat (engineIdentSet ev)).2 with _ | _
  · rw [hp2] at hok
    simp only [Bool.false_eq_true, if_false] at hok
    cases hfind : List.find? (fun c => !decide (cat.collIdent c ∈ engineIdentSet ev))
        cat.collections with
    | some c2 =>
        rw [hfind] at hok
        simp at hok
    | none =>
        rw [hfind] at hok
        simp only [Outcome.ok.injEq, RecRes.ok.injEq] at hok
        subst hok
        constructor
        · intro hmem
          simp only [List.mem_flatten, List.mem_map] at hmem
          rcases hmem with ⟨inner, ⟨c, hc, rfl⟩, hpair⟩
          simp only [List.mem_map, List.mem_filter] at hpair
          rcases hpair with ⟨im, ⟨him, hflt⟩, hpeq⟩
          have h1 : c = coll := congrArg Prod.fst hpeq
          have h2 : im.name = idx := congrArg Prod.snd hpeq
          rw [getIndexIdent_of_mem cat c im (hnd c hc) him] at hflt
          exact ⟨h1 ▸ hc, im, h1 ▸ him, h2, by simpa using hflt⟩
        · rintro ⟨hc, im, him, rfl, hident⟩
          simp only [List.mem_flatten, List.mem_map]
          refine ⟨_, ⟨coll, hc, rfl⟩, ?_⟩
          simp only [List.mem_map, List.mem_filter]
          refine ⟨im, ⟨him, ?_⟩, rfl⟩
          rw [getIndexIdent_of_mem cat coll im (hnd coll hc) him]
          simpa using hident
  · rw [hp2] at hok
    simp at hok

/-- A catalog whose one collection `db.c` (ident `user.C`) records one
index `i` with ident `idx.I`. -/
def catIdx : Catalog :=
  { collections := ["db.c"], collIdent := fun _ => "user.C",
    metaData := fun _ => ⟨[⟨"i", "idx.I"⟩]⟩,
    allIdents := ["user.C", "idx.I"],
    isUserDataIdent := fun _ => true }

/-- Claim C5 witness: the engine has the collection ident but not the
index ident `idx.I`, so reconcile succeeds with rebuild list
`[("db.c", "i")]` and the characterization holds at that pair. -/
theorem C5_witness :
    ("db.c", "i") ∈ [("db.c", "i")] ↔
      "db.c" ∈ catIdx.collections ∧
      ∃ im ∈ (catIdx.metaData "db.c").indexes, im.name = "i" ∧
        im.ident ∉ engineIdentSet ["user.C"] :=
  C5_reconcile_rebuild ["user.C"] catIdx dropIdentOK [("db.c", "i")]
    (by decide) (by intro c _; exact List.nodup_singleton "i") "db.c" "i"

/-- Claim C10: when `_engine->repairIdent` fails inside
`repairRecordStore`, the error status is returned unchanged, the state is
untouched and `reinitCollectionAfterRepair` is not invoked. -/
theorem C10_repairRecordStore (env : Env) (cat : Catalog) (st : St) (ns : String)
    (code : ErrorCode) (msg : String)
    (h : env.repairIdentStatus (cat.collIdent ns) = Status.err code msg) :
    repairRecordStore env cat st ns =
      { status := Status.err code msg, st := st, reinitCalled := false } := by
  simp [repairRecordStore, h, Status.isOK]

/-- A concrete environment whose engine `repairIdent` always fails. -/
def envRepairFail : Env :=
  { isReplicated := fun _ => false, isDropPending := fun _ => false,
    clusterTime := Timestamp.null,
    dropCollection := fun nss ns => (Status.ok, nss.erase ns),
    repairIdentStatus := fun _ => Status.err ErrorCode.BadValue "repair failed" }

/-- A concrete catalog with a single collection `db.c` backed by ident
`collection-0`. -/
def catOneColl : Catalog :=
  { collections := ["db.c"], collIdent := fun _ => "collection-0",
    metaData := fun _ => ⟨[]⟩, allIdents := ["collection-0"],
    isUserDataIdent := fun _ => true }

/-- Claim C10 witness: with an engine whose `repairIdent` fails with
`BadValue`, `repairRecordStore` reports exactly that error, leaves the
state alone and never reinitializes the collection. -/
theorem C10_witness :
    repairRecordStore envRepairFail catOneColl stEmpty "db.c" =
      { status := Status.err ErrorCode.BadValue "repair failed",
        st := stEmpty, reinitCalled := false } :=
  C10_repairRecordStore envRepairFail catOneColl stEmpty "db.c"
    ErrorCode.BadValue "repair failed" rfl

end Mongo
